import Mathlib

/-!
Verification of the Word Rush multiplayer word-guessing game.

The definitions below are a shallow embedding of the TypeScript/JavaScript
sources: `types.ts` (data model), `App.tsx` (host-authoritative game loop and
client reconciliation), `server.js` (relay-side session registry and broadcast
router) and `geminiService.ts` (word/hint source with fallback catalog).
Nondeterministic inputs of the source (`Math.random`, `Date.now`) are passed
as explicit parameters; `setTimeout` calls are modelled as a list of scheduled
tasks returned alongside the new state and the broadcast messages.
-/

/-- GameStatus from types.ts: finite state machine for the UI. -/
inductive GameStatus
  | LOBBY
  | PLAYING
  | ROUND_OVER
  | GAME_OVER
deriving DecidableEq, Repr

/-- Player from types.ts. -/
structure Player where
  id : String
  name : String
  score : Nat
  isSelf : Bool
  avatarColor : String
deriving DecidableEq, Repr

/-- WordData from types.ts: target word, 3 progressive hints, difficulty tag.
The difficulty is kept as a raw string because JSON-parsed data is not
validated against the union type. -/
structure WordData where
  word : String
  hints : List String
  difficulty : String
deriving DecidableEq, Repr

/-- ChatMessage from types.ts. -/
structure ChatMessage where
  id : String
  playerId : String
  playerName : String
  text : String
  kind : String
  timestamp : Nat
deriving DecidableEq, Repr

/-- GAME_ACTION sub-messages sent through socketService.broadcastAction.
SYNC_STATE carries an arbitrary subset of the state fields, so every field
is an Option (absent = not part of the payload). -/
inductive GameAction
  | SYNC_STATE (status : Option GameStatus) (currentWord : Option WordData)
      (timeLeft : Option Nat) (round : Option Nat)
      (revealedIndices : Option (List Nat)) (revealedHintCount : Option Nat)
      (maxRounds : Option Nat)
  | SYNC_TIME (timeLeft : Nat)
  | SYNC_HINT_UPDATE (revealedIndices : List Nat) (revealedHintCount : Nat)
  | PLAYER_SCORED (playerId : String) (playerName : String) (score : Nat) (points : Nat)
  | CHAT (msg : ChatMessage)
deriving DecidableEq, Repr

/-- Recognizes a SYNC_TIME message. -/
def GameAction.isSyncTime : GameAction → Bool
  | .SYNC_TIME _ => true
  | _ => false

/-- Recognizes a SYNC_STATE message. -/
def GameAction.isSyncState : GameAction → Bool
  | .SYNC_STATE _ _ _ _ _ _ _ => true
  | _ => false

/-- Tasks scheduled with setTimeout by the host logic. -/
inductive Scheduled
  | nextRound
deriving DecidableEq, Repr

/-- The component-local state of App.tsx (the useState hooks relevant to the
game logic). The nullable `player` of the source is modelled as always
present: every code path considered here runs after a successful join. -/
structure AppState where
  player : Player
  otherPlayers : List Player
  isHost : Bool
  gameStatus : GameStatus
  currentWord : Option WordData
  wordList : List WordData
  round : Nat
  timeLeft : Nat
  revealedIndices : List Nat
  revealedHintCount : Nat
  roundWinners : List Player
  chatMessages : List ChatMessage
deriving DecidableEq, Repr

/-- calculateScore from App.tsx: `(timeLeft * 15) + 100`. -/
def calculateScore (timeLeft : Nat) : Nat :=
  timeLeft * 15 + 100

/-- The CHAT case of the GAME_ACTION listener in App.tsx: an entry whose id
is already in the log is ignored, otherwise it is appended. -/
def applyChat (log : List ChatMessage) (m : ChatMessage) : List ChatMessage :=
  if log.any (fun x => x.id == m.id) then log else log ++ [m]

/-- handleGameTickHost from App.tsx: pick one random not-yet-revealed
non-space letter position (if any remain), advance the visible hint count
capped at the hint-list length, and broadcast both as SYNC_HINT_UPDATE.
`k` stands for the `Math.random()` draw (reduced mod the number of available
positions). Returns (newIndices, newHintCount, broadcasts). -/
def handleGameTickHost (w : WordData) (revealed : List Nat) (hintCount : Nat)
    (k : Nat) : List Nat × Nat × List GameAction :=
  let available := (List.range w.word.length).filter
    (fun i => !(revealed.contains i) && !(w.word.data.getD i ' ' == ' '))
  let newIndices :=
    if h : 0 < available.length then
      revealed ++ [available.get ⟨k % available.length, Nat.mod_lt k h⟩]
    else revealed
  let newHintCount := min (hintCount + 1) w.hints.length
  (newIndices, newHintCount,
    [GameAction.SYNC_HINT_UPDATE newIndices newHintCount])

/-- Iterated hint-reveal steps within one round, starting from the state set
by startRoundHost: empty revealed set and hint count 1. Each element of `ks`
is the random draw of one step. -/
def runHintSteps (w : WordData) (ks : List Nat) : List Nat × Nat :=
  ks.foldl (fun st k =>
    let r := handleGameTickHost w st.1 st.2 k
    (r.1, r.2.1)) ([], 1)

/-- startRoundHost from App.tsx: reset the per-round state and broadcast the
full snapshot. `sysId`/`now` stand for the Date.now-generated id and
timestamp of the system chat message. -/
def startRoundHost (s : AppState) (w : WordData) (roundNum : Nat)
    (list : List WordData) (sysId : String) (now : Nat) :
    AppState × List GameAction :=
  let msg : ChatMessage :=
    ⟨sysId, "system", "System",
     "Round " ++ toString roundNum ++ " started!", "system", now⟩
  ({ s with currentWord := some w, timeLeft := 60, revealedIndices := [],
            revealedHintCount := 1, gameStatus := GameStatus.PLAYING,
            roundWinners := [], chatMessages := s.chatMessages ++ [msg] },
   [GameAction.SYNC_STATE (some GameStatus.PLAYING) (some w) (some 60)
      (some roundNum) (some []) (some 1) (some list.length)])

/-- handleTimeOutHost from App.tsx: transition to ROUND_OVER, broadcast the
bare status change, append the system message announcing the word, and
schedule round advancement after 4000 ms. -/
def handleTimeOutHost (s : AppState) (sysId : String) (now : Nat) :
    AppState × List GameAction × List (Nat × Scheduled) :=
  let wordText := match s.currentWord with
    | some w => w.word
    | none => "undefined"
  let msg : ChatMessage :=
    ⟨sysId, "system", "System",
     "Time\x27s up! The word was " ++ wordText ++ ".", "system", now⟩
  ({ s with gameStatus := GameStatus.ROUND_OVER,
            chatMessages := s.chatMessages ++ [msg] },
   [GameAction.SYNC_STATE (some GameStatus.ROUND_OVER) none none none none
      none none],
   [(4000, Scheduled.nextRound)])

/-- One firing of the host setInterval callback in App.tsx (the body of the
setTimeLeft updater). With one second or less left it performs the timeout
transition and sets the time to zero, broadcasting no SYNC_TIME; otherwise it
decrements the time, performs the hint-reveal step when the new time is a
positive multiple of 15 other than 60, and finally broadcasts SYNC_TIME with
the decremented value. -/
def hostTimerTick (s : AppState) (k : Nat) (sysId : String) (now : Nat) :
    AppState × List GameAction × List (Nat × Scheduled) :=
  if s.timeLeft ≤ 1 then
    let r := handleTimeOutHost s sysId now
    ({ r.1 with timeLeft := 0 }, r.2.1, r.2.2)
  else
    let nextTime := s.timeLeft - 1
    let hintPart :=
      if (nextTime % 15 == 0) && !(nextTime == 60) && decide (0 < nextTime) then
        match s.currentWord with
        | none => (s.revealedIndices, s.revealedHintCount, ([] : List GameAction))
        | some w => handleGameTickHost w s.revealedIndices s.revealedHintCount k
      else (s.revealedIndices, s.revealedHintCount, ([] : List GameAction))
    ({ s with timeLeft := nextTime, revealedIndices := hintPart.1,
              revealedHintCount := hintPart.2.1 },
     hintPart.2.2 ++ [GameAction.SYNC_TIME nextTime],
     [])

/-- JavaScript String.prototype.trim: drop leading and trailing whitespace. -/
def jsTrim (s : String) : String :=
  String.mk (((s.data.dropWhile Char.isWhitespace).reverse.dropWhile
    Char.isWhitespace).reverse)

/-- JavaScript String.prototype.toUpperCase, on the basic-latin range used by
this game. -/
def jsToUpper (s : String) : String :=
  String.mk (s.data.map Char.toUpper)

/-- handleGuess from App.tsx. The submitted text is trimmed and uppercased;
a correct guess updates the local player score, appends a guess_correct chat
message, broadcasts PLAYER_SCORED and CHAT, and records the local player as a
round winner. The returned schedule is always empty: handleGuess sets no
timer and, in particular, never changes gameStatus. `msgId`/`now` stand for
the Date.now values. -/
def handleGuess (s : AppState) (input : String) (msgId : String) (now : Nat) :
    AppState × List GameAction × List (Nat × Scheduled) :=
  match s.currentWord with
  | none => (s, [], [])
  | some w =>
    if (jsTrim input == "") || !(s.gameStatus == GameStatus.PLAYING) then
      (s, [], [])
    else
      let text := jsTrim input
      let guess := jsToUpper text
      if guess == w.word then
        let points := calculateScore s.timeLeft
        let newScore := s.player.score + points
        let updatedPlayer := { s.player with score := newScore }
        let msg : ChatMessage :=
          ⟨msgId, s.player.id, s.player.name, text, "guess_correct", now⟩
        let winners :=
          if s.roundWinners.any (fun p => p.id == s.player.id) then
            s.roundWinners
          else s.roundWinners ++ [{ s.player with score := newScore }]
        ({ s with player := updatedPlayer,
                  chatMessages := s.chatMessages ++ [msg],
                  roundWinners := winners },
         [GameAction.PLAYER_SCORED s.player.id s.player.name newScore points,
          GameAction.CHAT msg],
         [])
      else
        let msg : ChatMessage :=
          ⟨msgId, s.player.id, s.player.name, text, "chat", now⟩
        ({ s with chatMessages := s.chatMessages ++ [msg] },
         [GameAction.CHAT msg], [])

/-- The data object of an incoming SYNC_STATE event: any subset of the state
fields may be present. -/
structure SyncStatePayload where
  status : Option GameStatus
  currentWord : Option WordData
  timeLeft : Option Nat
  round : Option Nat
  revealedIndices : Option (List Nat)
  revealedHintCount : Option Nat
  maxRounds : Option Nat
deriving DecidableEq, Repr

/-- The SYNC_STATE case of the GAME_ACTION listener in App.tsx. Each field is
applied only when present, mirroring the JavaScript truthiness guards of the
source: `round` and `revealedHintCount` are additionally ignored when zero
(`if (data.round)`), while `timeLeft` is applied whenever present
(`!== undefined`) and arrays/objects/status strings are applied whenever
present. A payload whose status is PLAYING also resets the round winners and
appends the round-start system message. -/
def applySyncState (s : AppState) (d : SyncStatePayload) (sysId : String)
    (now : Nat) : AppState :=
  let base := { s with
    gameStatus := match d.status with
      | some st => st
      | none => s.gameStatus,
    currentWord := match d.currentWord with
      | some w => some w
      | none => s.currentWord,
    timeLeft := match d.timeLeft with
      | some t => t
      | none => s.timeLeft,
    round := match d.round with
      | some r => if r == 0 then s.round else r
      | none => s.round,
    revealedIndices := match d.revealedIndices with
      | some ri => ri
      | none => s.revealedIndices,
    revealedHintCount := match d.revealedHintCount with
      | some c => if c == 0 then s.revealedHintCount else c
      | none => s.revealedHintCount }
  if d.status == some GameStatus.PLAYING then
    let roundText := match d.round with
      | some r => toString r
      | none => "undefined"
    let msg : ChatMessage :=
      ⟨sysId, "system", "System", "Round " ++ roundText ++ " started!",
       "system", now⟩
    { base with roundWinners := [], chatMessages := base.chatMessages ++ [msg] }
  else base

/-- A player record as stored by the relay server: the spread client Player
plus the ws connection handle, of which only the liveness
(`ws && ws.readyState === 1`) is relevant here. -/
structure SPlayer where
  id : String
  name : String
  connOpen : Bool
deriving DecidableEq, Repr

/-- A room of server.js: ordered member list and the designated host id. -/
structure Room where
  players : List SPlayer
  hostId : String
deriving DecidableEq, Repr

/-- The server-side `rooms` map, as an association list keyed by room id. -/
abbrev Registry := List (String × Room)

/-- rooms.get. -/
def findRoom (rs : Registry) (rid : String) : Option Room :=
  (List.find? (fun pr => pr.1 == rid) rs).map (fun pr => pr.2)

/-- rooms.set: replace the entry when the key is present, append otherwise. -/
def setRoom (rs : Registry) (rid : String) (r : Room) : Registry :=
  if rs.any (fun pr => pr.1 == rid) then
    rs.map (fun pr => if pr.1 == rid then (rid, r) else pr)
  else rs ++ [(rid, r)]

/-- rooms.delete. -/
def deleteRoom (rs : Registry) (rid : String) : Registry :=
  rs.filter (fun pr => !(pr.1 == rid))

/-- The JOIN_ROOM handler of server.js: create the room with the joiner as
host when absent; on a reconnect (same player id) update the connection and
name in place, otherwise push the player at the end of the member list. -/
def joinRoom (rs : Registry) (rid : String) (p : SPlayer) : Registry :=
  let room := match findRoom rs rid with
    | some r => r
    | none => ⟨[], p.id⟩
  let players :=
    if room.players.any (fun q => q.id == p.id) then
      room.players.map (fun q =>
        if q.id == p.id then { q with name := p.name, connOpen := p.connOpen }
        else q)
    else room.players ++ [p]
  setRoom rs rid ⟨players, room.hostId⟩

/-- Direct messages the relay sends during disconnect handling. -/
inductive OutMsg
  | PLAYER_LEFT (recipient : String) (leftId : String)
  | BECAME_HOST (recipient : String)
deriving DecidableEq, Repr

/-- Recognizes a BECAME_HOST message. -/
def OutMsg.isBecameHost : OutMsg → Bool
  | .BECAME_HOST _ => true
  | _ => false

/-- The ws close handler of server.js for a connection whose current room and
player ids are `rid`/`pid`: remove the player, broadcast PLAYER_LEFT to the
remaining members with open connections, delete the room when it became
empty, and otherwise promote the first remaining member when the departed
player was the host, sending BECAME_HOST to the promoted member only when its
connection is open. -/
def closeConn (rs : Registry) (rid : String) (pid : String) :
    Registry × List OutMsg :=
  match findRoom rs rid with
  | none => (rs, [])
  | some room =>
    let remaining := room.players.filter (fun q => !(q.id == pid))
    let leftMsgs := (remaining.filter (fun q => q.connOpen)).map
      (fun q => OutMsg.PLAYER_LEFT q.id pid)
    match remaining with
    | [] => (deleteRoom rs rid, leftMsgs)
    | newHost :: rest =>
      if room.hostId == pid then
        (setRoom rs rid ⟨newHost :: rest, newHost.id⟩,
         leftMsgs ++ (if newHost.connOpen then [OutMsg.BECAME_HOST newHost.id] else []))
      else
        (setRoom rs rid ⟨newHost :: rest, room.hostId⟩, leftMsgs)

/-- Registry events: a JOIN_ROOM message, or the transport close signal of a
connection whose stored room/player ids are the given ones. Allowing
arbitrary ids in the close event covers every sequence of real connections. -/
inductive REvent
  | join (rid : String) (p : SPlayer)
  | close (rid : String) (pid : String)
deriving DecidableEq, Repr

/-- Apply one registry event. -/
def applyEvent (rs : Registry) (e : REvent) : Registry :=
  match e with
  | .join rid p => joinRoom rs rid p
  | .close rid pid => (closeConn rs rid pid).1

/-- Run a sequence of registry events from the initial empty registry. -/
def runEvents (es : List REvent) : Registry :=
  es.foldl applyEvent []

/-- Well-formedness of a room: non-empty, pairwise-distinct member ids, and
the host id is the id of a member (hence of exactly one member). -/
def roomWF (r : Room) : Prop :=
  r.players ≠ [] ∧ (r.players.map (fun q => q.id)).Nodup ∧
    r.hostId ∈ r.players.map (fun q => q.id)

/-- Well-formedness of the registry: every room in it is well-formed. -/
def registryWF (rs : Registry) : Prop :=
  ∀ pr ∈ rs, roomWF pr.2

/-- The outcome of the Gemini call in geminiService.ts as seen by
generateWords: the call (or the subsequent JSON.parse) threw, the response
carried no text, or a list was successfully parsed. -/
inductive ApiOutcome
  | err
  | noText
  | ok (ws : List WordData)
deriving DecidableEq, Repr

/-- The fixed fallback catalog GIANT_WORD_LIST of geminiService.ts. -/
def GIANT_WORD_LIST : List WordData := [
  ⟨"BANANA", ["I am a fruit", "I am yellow and curved", "Monkeys love to eat me"], "easy"⟩,
  ⟨"ELEPHANT", ["I am a very large land animal", "I have a long trunk", "I have big floppy ears"], "easy"⟩,
  ⟨"GALAXY", ["I contain billions of stars", "The Milky Way is one of me", "I am held together by gravity"], "medium"⟩,
  ⟨"ORCHESTRA", ["I am a large group of musicians", "I have a conductor", "I play symphonies"], "hard"⟩,
  ⟨"VOLCANO", ["I am a mountain that opens downward", "I can erupt with lava", "I often have a crater"], "medium"⟩,
  ⟨"PIZZA", ["I am a popular Italian dish", "I am round and sliced", "I have cheese and tomato sauce"], "easy"⟩,
  ⟨"ASTRONAUT", ["I travel to space", "I wear a special suit", "I work on the ISS"], "medium"⟩,
  ⟨"LIBRARY", ["I am a place with many books", "You must be quiet inside me", "You can borrow things from me"], "easy"⟩,
  ⟨"DIAMOND", ["I am a very hard gemstone", "I am made of compressed carbon", "I am a girl\x27s best friend"], "medium"⟩,
  ⟨"PYRAMID", ["I am a triangular structure", "I am famous in Egypt", "I served as a tomb for pharaohs"], "medium"⟩,
  ⟨"TORNADO", ["I am a violently rotating column of air", "I am often called a twister", "I occur during severe thunderstorms"], "medium"⟩,
  ⟨"KANGAROO", ["I am an animal from Australia", "I hop to move around", "I carry my baby in a pouch"], "easy"⟩,
  ⟨"CHOCOLATE", ["I am a sweet treat", "I am made from cocoa beans", "I come in dark, milk, and white varieties"], "easy"⟩,
  ⟨"OCTOPUS", ["I live in the ocean", "I have eight arms", "I can squirt ink"], "medium"⟩,
  ⟨"RAINBOW", ["I appear after rain", "I have seven colors", "I am an optical illusion in the sky"], "easy"⟩,
  ⟨"HELICOPTER", ["I am an aircraft", "I have spinning rotors on top", "I can hover in place"], "medium"⟩,
  ⟨"SNOWMAN", ["I am made of frozen water", "I have a carrot nose", "I melt in the sun"], "easy"⟩,
  ⟨"TELESCOPE", ["I help you see far away", "Astronomers use me", "I use lenses or mirrors"], "medium"⟩,
  ⟨"VAMPIRE", ["I am a mythical creature", "I drink blood", "I dislike garlic and sunlight"], "easy"⟩,
  ⟨"SKELETON", ["I am inside your body", "I am made of bones", "I protect your organs"], "easy"⟩,
  ⟨"SUBMARINE", ["I travel underwater", "I am used by the navy", "I use sonar to navigate"], "medium"⟩,
  ⟨"JUNGLE", ["I am a dense forest", "I have a tropical climate", "Many wild animals live here"], "medium"⟩,
  ⟨"BUTTERFLY", ["I start as a caterpillar", "I have colorful wings", "I drink nectar from flowers"], "easy"⟩,
  ⟨"ROBOT", ["I am a machine", "I can be programmed", "I might take over the world someday"], "medium"⟩,
  ⟨"ISLAND", ["I am land surrounded by water", "Hawaii is a famous example", "I can be tropical or rocky"], "easy"⟩,
  ⟨"DENTIST", ["I am a doctor for teeth", "I fill cavities", "I tell you to floss"], "medium"⟩,
  ⟨"PENGUIN", ["I am a bird that cannot fly", "I live in the southern hemisphere", "I waddle and swim"], "easy"⟩,
  ⟨"FIREWORKS", ["I am used for celebrations", "I explode with light and noise", "I am common on New Year\x27s Eve"], "medium"⟩,
  ⟨"SUNFLOWER", ["I am a tall yellow flower", "I produce edible seeds", "I turn my head to follow the sun"], "easy"⟩,
  ⟨"COMPASS", ["I am a navigation tool", "I always point North", "I use magnetism"], "medium"⟩]

/-- A valid WordRound item: non-empty word, exactly 3 hints, and a known
difficulty tag. -/
def isValidWord (w : WordData) : Bool :=
  !(w.word == "") && (w.hints.length == 3) &&
    (w.difficulty == "easy" || w.difficulty == "medium" || w.difficulty == "hard")

/-- generateWords from geminiService.ts. `hasKey` is the presence of
process.env.API_KEY; `shuffled` stands for the random-comparator shuffle
`[...GIANT_WORD_LIST].sort(() => 0.5 - Math.random())`, an arbitrary
permutation of the catalog; `outcome` is the result of the API call. A
throwing call (or throwing JSON.parse) and an absent/empty response text fall
back to the shuffled catalog sample; a successfully parsed list is returned
as-is. -/
def generateWords (count : Nat) (hasKey : Bool) (outcome : ApiOutcome)
    (shuffled : List WordData) : List WordData :=
  if !hasKey then shuffled.take count
  else
    match outcome with
    | .ok ws => ws
    | .err => shuffled.take count
    | .noText => shuffled.take count

/-- A small concrete word used as test input. -/
def wordAB : WordData := ⟨"AB", ["h1", "h2", "h3"], "easy"⟩

/-- The BANANA entry of the catalog, used as a concrete round word. -/
def bananaWord : WordData :=
  ⟨"BANANA", ["I am a fruit", "I am yellow and curved", "Monkeys love to eat me"], "easy"⟩

/-- A concrete host mid-round state: host player p1, one other player, status
PLAYING, word BANANA, 30 seconds left. -/
def hostGuessState : AppState :=
  ⟨⟨"p1", "Alice", 0, true, "bg-red-500"⟩,
   [⟨"p2", "Bob", 0, false, "bg-blue-500"⟩],
   true, GameStatus.PLAYING, some bananaWord, [bananaWord], 1, 30, [], 1, [], []⟩

/-- A concrete host state on the last second of the round. -/
def tickStateOne : AppState :=
  ⟨⟨"p1", "Alice", 0, true, "bg-red-500"⟩, [], true, GameStatus.PLAYING,
   some wordAB, [wordAB], 1, 1, [], 1, [], []⟩

/-- A concrete host state mid-round with 45 seconds left. -/
def tickState45 : AppState :=
  ⟨⟨"p1", "Alice", 0, true, "bg-red-500"⟩, [], true, GameStatus.PLAYING,
   some wordAB, [wordAB], 1, 45, [], 1, [], []⟩

/-- A concrete client state used as a reconciliation target. -/
def clientStateW : AppState :=
  ⟨⟨"p2", "Bob", 0, true, "bg-blue-500"⟩, [], false, GameStatus.PLAYING,
   some wordAB, [], 2, 30, [3], 2, [], []⟩

/-- A SYNC_STATE payload with no field present. -/
def emptyPayload : SyncStatePayload := ⟨none, none, none, none, none, none, none⟩

/-- A concrete chat message. -/
def chatMsg1 : ChatMessage := ⟨"42", "p2", "Bob", "hello", "chat", 7⟩

/-- A registry whose room host is p1 and whose remaining member p2 has a
closed connection. -/
def regClosed : Registry :=
  [("ABC", ⟨[⟨"p1", "Alice", true⟩, ⟨"p2", "Bob", false⟩], "p1"⟩)]

/-- A registry whose room host is p1 and whose remaining member p2 has an
open connection. -/
def regOpen : Registry :=
  [("XYZ", ⟨[⟨"p1", "Alice", true⟩, ⟨"p2", "Bob", true⟩], "p1"⟩)]

/-- C7: the score for a correct guess equals timeLeft * 15 + 100: exactly 100
at timeLeft = 0, exactly 250 at timeLeft = 10, and strictly positive for
every timeLeft. -/
theorem calculateScore_formula :
    calculateScore 0 = 100 ∧ calculateScore 10 = 250 ∧
      ∀ t : Nat, 0 < calculateScore t := by
  refine ⟨rfl, rfl, ?_⟩
  intro t
  unfold calculateScore
  omega

/-- C9: applying a CHAT event whose id already occurs in the log leaves the
log unchanged; applying the same entry twice is the same as applying it once,
and if the log held at most one entry with that id (as every log maintained
by this dedup logic does), the log afterwards holds exactly one. -/
theorem applyChat_idempotent (log : List ChatMessage) (e : ChatMessage) :
    (log.any (fun x => x.id == e.id) = true → applyChat log e = log) ∧
    applyChat (applyChat log e) e = applyChat log e ∧
    ((log.filter (fun x => x.id == e.id)).length ≤ 1 →
      ((applyChat (applyChat log e) e).filter (fun x => x.id == e.id)).length = 1) := by
  have hself : ((log ++ [e]).any (fun x => x.id == e.id)) = true := by
    simp [List.any_append]
  refine ⟨?_, ?_, ?_⟩
  · intro h
    unfold applyChat
    rw [if_pos h]
  · by_cases h : log.any (fun x => x.id == e.id) = true
    · unfold applyChat
      rw [if_pos h, if_pos h]
    · unfold applyChat
      rw [if_neg h, if_pos hself]
  · intro hle
    by_cases h : log.any (fun x => x.id == e.id) = true
    · have hge : 1 ≤ (log.filter (fun x => x.id == e.id)).length := by
        rcases List.any_eq_true.mp h with ⟨x, hx, hpx⟩
        exact List.length_pos_of_mem (List.mem_filter.mpr ⟨hx, hpx⟩)
      unfold applyChat
      rw [if_pos h, if_pos h]
      omega
    · have hall : ∀ x ∈ log, ¬ x.id = e.id := by simpa using h
      have hnil : log.filter (fun x => x.id == e.id) = [] := by
        apply List.filter_eq_nil_iff.mpr
        intro x hx
        simpa using hall x hx
      unfold applyChat
      rw [if_neg h, if_pos hself]
      rw [List.filter_append, hnil]
      simp

/-- C9 witness: a log already holding the entry is left unchanged and keeps
exactly one occurrence of the id. -/
theorem applyChat_idempotent_witness :
    (applyChat [chatMsg1] chatMsg1 = [chatMsg1]) ∧
    applyChat (applyChat [chatMsg1] chatMsg1) chatMsg1 = applyChat [chatMsg1] chatMsg1 ∧
    ((applyChat (applyChat [chatMsg1] chatMsg1) chatMsg1).filter
      (fun x => x.id == chatMsg1.id)).length = 1 :=
  ⟨(applyChat_idempotent [chatMsg1] chatMsg1).1 (by decide),
   (applyChat_idempotent [chatMsg1] chatMsg1).2.1,
   (applyChat_idempotent [chatMsg1] chatMsg1).2.2 (by decide)⟩

/-- C10: when every non-space position of the word is already revealed, the
hint-reveal step leaves the revealed set unchanged, still advances the hint
count to min (count + 1) (hint list length), and still emits the
SYNC_HINT_UPDATE broadcast carrying both values. -/
theorem tick_all_revealed (w : WordData) (revealed : List Nat) (c k : Nat)
    (hall : ∀ i ∈ List.range w.word.length,
      ¬(w.word.data.getD i ' ' = ' ') → i ∈ revealed) :
    handleGameTickHost w revealed c k =
      (revealed, min (c + 1) w.hints.length,
       [GameAction.SYNC_HINT_UPDATE revealed (min (c + 1) w.hints.length)]) := by
  have hav : (List.range w.word.length).filter
      (fun i => !(revealed.contains i) && !(w.word.data.getD i ' ' == ' ')) = [] := by
    apply List.filter_eq_nil_iff.mpr
    intro i hi
    intro hcontra
    rw [Bool.and_eq_true] at hcontra
    by_cases hsp : w.word.data.getD i ' ' = ' '
    · have h2 := hcontra.2
      rw [hsp] at h2
      simp at h2
    · have hmem := hall i hi hsp
      have hcont : revealed.contains i = true := List.elem_eq_true_of_mem hmem
      have h1 := hcontra.1
      rw [hcont] at h1
      simp at h1
  have hlen : ¬ 0 < ((List.range w.word.length).filter
      (fun i => !(revealed.contains i) && !(w.word.data.getD i ' ' == ' '))).length := by
    rw [hav]; simp
  simp only [handleGameTickHost]
  rw [dif_neg hlen]

/-- C10 witness: with the 2-letter word AB fully revealed, the step keeps the
revealed set, advances the hint count and emits the broadcast. -/
theorem tick_all_revealed_witness :
    handleGameTickHost wordAB [0, 1] 1 0 =
      ([0, 1], min 2 3, [GameAction.SYNC_HINT_UPDATE [0, 1] (min 2 3)]) :=
  tick_all_revealed wordAB [0, 1] 1 0 (by decide)

/-- C5 counterexample: when the source succeeds but returns zero items (a
parsed empty list), generateWords(5) returns those zero items rather than 5
catalog items. -/
theorem generateWords_zero_items :
    ¬ ((generateWords 5 true (ApiOutcome.ok []) GIANT_WORD_LIST).length = 5) := by
  decide

/-- C5 (amended): when the source raises (including a throwing JSON.parse),
when its response has no text, or when no API key is configured, requesting 5
rounds returns exactly 5 valid items drawn from the fixed catalog and the
failure is not propagated; a successfully parsed response, however, is
returned as-is even when it holds zero items. -/
theorem generateWords_fallback (shuffled : List WordData)
    (hperm : shuffled.Perm GIANT_WORD_LIST) (hasKey : Bool) (outcome : ApiOutcome)
    (hfail : hasKey = false ∨ outcome = ApiOutcome.err ∨ outcome = ApiOutcome.noText) :
    (generateWords 5 hasKey outcome shuffled).length = 5 ∧
      ∀ w ∈ generateWords 5 hasKey outcome shuffled,
        w ∈ GIANT_WORD_LIST ∧ isValidWord w = true := by
  have hlen : shuffled.length = 30 := by
    rw [hperm.length_eq]; rfl
  have hres : generateWords 5 hasKey outcome shuffled = shuffled.take 5 := by
    rcases hfail with h | h | h
    · simp [generateWords, h]
    · subst h; cases hasKey <;> simp [generateWords]
    · subst h; cases hasKey <;> simp [generateWords]
  rw [hres]
  constructor
  · simp [List.length_take, hlen]
  · intro w hw
    have hmem : w ∈ shuffled := List.take_subset _ _ hw
    have hcat : w ∈ GIANT_WORD_LIST := hperm.mem_iff.mp hmem
    have hvalid : ∀ x ∈ GIANT_WORD_LIST, isValidWord x = true := by decide
    exact ⟨hcat, hvalid w hcat⟩

/-- C5 witness: with the identity permutation and a throwing source, exactly
5 valid catalog items are returned. -/
theorem generateWords_fallback_witness :
    (generateWords 5 true ApiOutcome.err GIANT_WORD_LIST).length = 5 ∧
      ∀ w ∈ generateWords 5 true ApiOutcome.err GIANT_WORD_LIST,
        w ∈ GIANT_WORD_LIST ∧ isValidWord w = true :=
  generateWords_fallback GIANT_WORD_LIST (List.Perm.refl _) true ApiOutcome.err
    (Or.inr (Or.inl rfl))

/-- C2 counterexample: on the tick that brings the remaining time to zero
(previous value 1) the host performs the timeout transition and broadcasts no
SYNC_TIME message at all. -/
theorem sync_time_zero_tick :
    (hostTimerTick tickStateOne 0 "m" 5).1.timeLeft = 0 ∧
    (hostTimerTick tickStateOne 0 "m" 5).2.1.filter GameAction.isSyncTime = [] := by
  decide

/-- C2 (amended): on every tick whose previous remaining time is greater
than 1 the host decrements the time and broadcasts SYNC_TIME with the new
value, whether or not a hint reveal also occurred; the tick on which the time
reaches zero instead performs the timeout transition and broadcasts no
SYNC_TIME. -/
theorem sync_time_every_tick (s : AppState) (k : Nat) (sid : String) (now : Nat)
    (_hstatus : s.gameStatus = GameStatus.PLAYING) (_hhost : s.isHost = true)
    (ht : 1 < s.timeLeft) :
    (hostTimerTick s k sid now).1.timeLeft = s.timeLeft - 1 ∧
      GameAction.SYNC_TIME (s.timeLeft - 1) ∈ (hostTimerTick s k sid now).2.1 := by
  have hnot : ¬ (s.timeLeft ≤ 1) := by omega
  constructor
  · simp only [hostTimerTick]
    rw [if_neg hnot]
  · simp only [hostTimerTick]
    rw [if_neg hnot]
    exact List.mem_append_right _ (List.mem_singleton_self _)

/-- C2 witness: a tick from 45 seconds decrements to 44 and broadcasts
SYNC_TIME 44. -/
theorem sync_time_every_tick_witness :
    (hostTimerTick tickState45 0 "m" 5).1.timeLeft = tickState45.timeLeft - 1 ∧
      GameAction.SYNC_TIME (tickState45.timeLeft - 1) ∈ (hostTimerTick tickState45 0 "m" 5).2.1 :=
  sync_time_every_tick tickState45 0 "m" 5 rfl rfl (by decide)

/-- C1: evaluation of handleGuess at the failing input. When the host itself
submits the correct guess, the resulting status is still PLAYING, no
SYNC_STATE (hence no ROUND_OVER) broadcast is emitted, no round advancement
is scheduled, and only the round-winner entry is recorded. Because the relay
excludes the sender from GAME_ACTION broadcasts, the host never receives its
own PLAYER_SCORED message, so no other code path performs the transition
either. -/
theorem host_own_guess_no_round_over :
    (handleGuess hostGuessState "banana" "m1" 1000).1.gameStatus = GameStatus.PLAYING ∧
    (handleGuess hostGuessState "banana" "m1" 1000).2.1.filter GameAction.isSyncState = [] ∧
    (handleGuess hostGuessState "banana" "m1" 1000).2.2 = [] ∧
    (handleGuess hostGuessState "banana" "m1" 1000).1.roundWinners.map
      (fun p => p.id) = ["p1"] := by
  decide

/-- C8: a SYNC_STATE event only overwrites the local fields present in its
payload; every absent field leaves the corresponding local value unchanged. -/
theorem sync_state_frame (s : AppState) (d : SyncStatePayload) (sid : String)
    (now : Nat) :
    (d.status = none → (applySyncState s d sid now).gameStatus = s.gameStatus) ∧
    (d.currentWord = none → (applySyncState s d sid now).currentWord = s.currentWord) ∧
    (d.timeLeft = none → (applySyncState s d sid now).timeLeft = s.timeLeft) ∧
    (d.round = none → (applySyncState s d sid now).round = s.round) ∧
    (d.revealedIndices = none → (applySyncState s d sid now).revealedIndices = s.revealedIndices) ∧
    (d.revealedHintCount = none →
      (applySyncState s d sid now).revealedHintCount = s.revealedHintCount) := by
  rcases d with ⟨st, cw, tl, rd, ri, rc, mr⟩
  refine ⟨?_, ?_, ?_, ?_, ?_, ?_⟩ <;> intro h <;> subst h <;>
    simp only [applySyncState] <;> (repeat' split) <;> simp_all

/-- C8 witness: applying the all-absent payload leaves all six fields of a
concrete client state unchanged. -/
theorem sync_state_frame_witness :
    (applySyncState clientStateW emptyPayload "m" 7).gameStatus = clientStateW.gameStatus ∧
    (applySyncState clientStateW emptyPayload "m" 7).currentWord = clientStateW.currentWord ∧
    (applySyncState clientStateW emptyPayload "m" 7).timeLeft = clientStateW.timeLeft ∧
    (applySyncState clientStateW emptyPayload "m" 7).round = clientStateW.round ∧
    (applySyncState clientStateW emptyPayload "m" 7).revealedIndices = clientStateW.revealedIndices ∧
    (applySyncState clientStateW emptyPayload "m" 7).revealedHintCount = clientStateW.revealedHintCount := by
  have h := sync_state_frame clientStateW emptyPayload "m" 7
  exact ⟨h.1 rfl, h.2.1 rfl, h.2.2.1 rfl, h.2.2.2.1 rfl, h.2.2.2.2.1 rfl,
    h.2.2.2.2.2 rfl⟩

/-- The hint count produced by one hint-reveal step. -/
theorem handleGameTickHost_hintCount (w : WordData) (revealed : List Nat)
    (c k : Nat) :
    (handleGameTickHost w revealed c k).2.1 = min (c + 1) w.hints.length := rfl

/-- The revealed set produced by one hint-reveal step: either unchanged or
extended by one element of the available (unrevealed, non-space) positions. -/
theorem handleGameTickHost_indices (w : WordData) (revealed : List Nat)
    (c k : Nat) :
    (handleGameTickHost w revealed c k).1 = revealed ∨
      ∃ j, (handleGameTickHost w revealed c k).1 = revealed ++ [j] ∧
        j ∈ (List.range w.word.length).filter
          (fun i => !(revealed.contains i) && !(w.word.data.getD i ' ' == ' ')) := by
  simp only [handleGameTickHost]
  split
  · exact Or.inr ⟨_, rfl, List.get_mem _ _ _⟩
  · exact Or.inl rfl

/-- Unfolding one trailing hint-reveal step of a round trace. -/
theorem runHintSteps_append (w : WordData) (ks : List Nat) (k : Nat) :
    runHintSteps w (ks ++ [k]) =
      ((handleGameTickHost w (runHintSteps w ks).1 (runHintSteps w ks).2 k).1,
       (handleGameTickHost w (runHintSteps w ks).1 (runHintSteps w ks).2 k).2.1) := by
  unfold runHintSteps
  rw [List.foldl_append]
  rfl

/-- Along any round trace the hint count stays bounded by the hint-list
length, provided the word has at least one hint. -/
theorem runHintSteps_count_le (w : WordData) (hw : 1 ≤ w.hints.length)
    (ks : List Nat) : (runHintSteps w ks).2 ≤ w.hints.length := by
  rcases List.eq_nil_or_concat ks with h | ⟨l, a, h⟩
  · subst h; exact hw
  · subst h
    rw [List.concat_eq_append, runHintSteps_append, handleGameTickHost_hintCount]
    exact min_le_right _ _

/-- C6: within a single round the revealed-index set and the visible-hint
count never shrink: each hint-reveal step keeps all previously revealed
indices, adds at most one new index, every added index is an in-range
non-space position, and the hint count only grows while staying capped at
the hint-list length; both quantities are reset to the empty set and 1 by
startRoundHost at round start. -/
theorem reveal_monotone (w : WordData) (s : AppState) (rn : Nat)
    (l : List WordData) (sid : String) (now : Nat) (ks : List Nat) (k : Nat)
    (hw : 1 ≤ w.hints.length) :
    (startRoundHost s w rn l sid now).1.revealedIndices = [] ∧
    (startRoundHost s w rn l sid now).1.revealedHintCount = 1 ∧
    (∀ i ∈ (runHintSteps w ks).1, i ∈ (runHintSteps w (ks ++ [k])).1) ∧
    (runHintSteps w ks).2 ≤ (runHintSteps w (ks ++ [k])).2 ∧
    (runHintSteps w (ks ++ [k])).2 ≤ w.hints.length ∧
    (runHintSteps w (ks ++ [k])).1.length ≤ (runHintSteps w ks).1.length + 1 ∧
    (∀ i ∈ (runHintSteps w (ks ++ [k])).1, i ∉ (runHintSteps w ks).1 →
      i < w.word.length ∧ ¬(w.word.data.getD i ' ' = ' ')) := by
  refine ⟨rfl, rfl, ?_, ?_, runHintSteps_count_le w hw (ks ++ [k]), ?_, ?_⟩
  · intro i hi
    rw [runHintSteps_append]
    rcases handleGameTickHost_indices w (runHintSteps w ks).1
        (runHintSteps w ks).2 k with h | ⟨j, h, _⟩
    · rw [h]; exact hi
    · rw [h]; exact List.mem_append_left _ hi
  · rw [runHintSteps_append]
    simp only [handleGameTickHost_hintCount]
    exact le_min (Nat.le_succ _) (runHintSteps_count_le w hw ks)
  · rw [runHintSteps_append]
    rcases handleGameTickHost_indices w (runHintSteps w ks).1
        (runHintSteps w ks).2 k with h | ⟨j, h, _⟩
    · rw [h]; omega
    · rw [h]; simp
  · intro i hi hnot
    rw [runHintSteps_append] at hi
    rcases handleGameTickHost_indices w (runHintSteps w ks).1
        (runHintSteps w ks).2 k with h | ⟨j, h, hj⟩
    · rw [h] at hi; exact absurd hi hnot
    · rw [h] at hi
      rcases List.mem_append.mp hi with hi | hi
      · exact absurd hi hnot
      · have hij : i = j := List.mem_singleton.mp hi
        subst hij
        rcases List.mem_filter.mp hj with ⟨hrange, hpred⟩
        rw [Bool.and_eq_true] at hpred
        refine ⟨List.mem_range.mp hrange, ?_⟩
        intro hsp
        have h2 := hpred.2
        rw [hsp] at h2
        simp at h2

/-- C6 witness: for the word AB after a round start with one pending step,
all monotonicity conjuncts hold concretely. -/
theorem reveal_monotone_witness :
    (startRoundHost clientStateW wordAB 1 [wordAB] "m" 0).1.revealedIndices = [] ∧
    (startRoundHost clientStateW wordAB 1 [wordAB] "m" 0).1.revealedHintCount = 1 ∧
    (∀ i ∈ (runHintSteps wordAB []).1, i ∈ (runHintSteps wordAB ([] ++ [0])).1) ∧
    (runHintSteps wordAB []).2 ≤ (runHintSteps wordAB ([] ++ [0])).2 ∧
    (runHintSteps wordAB ([] ++ [0])).2 ≤ wordAB.hints.length ∧
    (runHintSteps wordAB ([] ++ [0])).1.length ≤ (runHintSteps wordAB []).1.length + 1 ∧
    (∀ i ∈ (runHintSteps wordAB ([] ++ [0])).1, i ∉ (runHintSteps wordAB []).1 →
      i < wordAB.word.length ∧ ¬(wordAB.word.data.getD i ' ' = ' ')) :=
  reveal_monotone wordAB clientStateW 1 [wordAB] "m" 0 [] 0 (by decide)

/-- Membership after a setRoom: an entry is the written one or an old one. -/
theorem mem_setRoom (rs : Registry) (rid : String) (r : Room)
    (pr : String × Room) (h : pr ∈ setRoom rs rid r) :
    pr = (rid, r) ∨ pr ∈ rs := by
  unfold setRoom at h
  split at h
  · rcases List.mem_map.mp h with ⟨q, hq, hmap⟩
    by_cases hqr : (q.1 == rid) = true
    · rw [if_pos hqr] at hmap
      exact Or.inl hmap.symm
    · rw [if_neg hqr] at hmap
      subst hmap
      exact Or.inr hq
  · rcases List.mem_append.mp h with h | h
    · exact Or.inr h
    · exact Or.inl (List.mem_singleton.mp h)

/-- setRoom preserves registry well-formedness when the written room is
well-formed. -/
theorem registryWF_setRoom (rs : Registry) (rid : String) (r : Room)
    (hrs : registryWF rs) (hr : roomWF r) : registryWF (setRoom rs rid r) := by
  intro pr hpr
  rcases mem_setRoom rs rid r pr hpr with h | h
  · rw [h]; exact hr
  · exact hrs pr h

/-- deleteRoom preserves registry well-formedness. -/
theorem registryWF_deleteRoom (rs : Registry) (rid : String)
    (hrs : registryWF rs) : registryWF (deleteRoom rs rid) := by
  intro pr hpr
  exact hrs pr (List.mem_of_mem_filter hpr)

/-- A room found in a well-formed registry is well-formed. -/
theorem findRoom_wf (rs : Registry) (rid : String) (room : Room)
    (hrs : registryWF rs) (h : findRoom rs rid = some room) : roomWF room := by
  unfold findRoom at h
  cases hf : List.find? (fun pr => pr.1 == rid) rs with
  | none => rw [hf] at h; simp at h
  | some pr =>
      rw [hf] at h
      have h2 : pr.2 = room := by simpa using h
      rw [← h2]
      exact hrs pr (List.mem_of_find?_eq_some hf)

/-- The JOIN_ROOM handler preserves registry well-formedness. -/
theorem registryWF_join (rs : Registry) (rid : String) (p : SPlayer)
    (hrs : registryWF rs) : registryWF (joinRoom rs rid p) := by
  unfold joinRoom
  cases hfind : findRoom rs rid with
  | none =>
      apply registryWF_setRoom _ _ _ hrs
      simp [roomWF]
  | some room =>
      obtain ⟨hne, hnd, hhost⟩ := findRoom_wf rs rid room hrs hfind
      apply registryWF_setRoom _ _ _ hrs
      by_cases hany : room.players.any (fun q => q.id == p.id) = true
      · rw [if_pos hany]
        have hids : ((room.players.map (fun q =>
            if q.id == p.id then { q with name := p.name, connOpen := p.connOpen }
            else q)).map (fun q => q.id)) = room.players.map (fun q => q.id) := by
          rw [List.map_map]
          apply List.map_congr_left
          intro q _
          by_cases h : q.id = p.id <;> simp [h]
        refine ⟨?_, ?_, ?_⟩
        · intro hcon
          rw [List.map_eq_nil] at hcon
          exact hne hcon
        · rw [hids]; exact hnd
        · rw [hids]; exact hhost
      · rw [if_neg hany]
        have hall : ∀ q ∈ room.players, ¬ q.id = p.id := by simpa using hany
        have hnotin : p.id ∉ room.players.map (fun q => q.id) := by
          intro hmem
          rcases List.mem_map.mp hmem with ⟨q, hq, hqid⟩
          exact hall q hq hqid
        refine ⟨by simp, ?_, ?_⟩
        · rw [List.map_append, List.nodup_append]
          refine ⟨hnd, List.nodup_singleton _, ?_⟩
          intro a ha hb
          rw [List.mem_singleton.mp hb] at ha
          exact hnotin ha
        · rw [List.map_append]
          exact List.mem_append_left _ hhost

/-- The disconnect handler preserves registry well-formedness. -/
theorem registryWF_close (rs : Registry) (rid pid : String)
    (hrs : registryWF rs) : registryWF (closeConn rs rid pid).1 := by
  unfold closeConn
  cases hfind : findRoom rs rid with
  | none => exact hrs
  | some room =>
      obtain ⟨hne, hnd, hhost⟩ := findRoom_wf rs rid room hrs hfind
      dsimp only
      cases hrem : room.players.filter (fun q => !(q.id == pid)) with
      | nil => exact registryWF_deleteRoom rs rid hrs
      | cons newHost rest =>
          have hsub : ((newHost :: rest).map (fun q => q.id)).Nodup := by
            rw [← hrem]
            exact hnd.sublist (List.Sublist.map _ (List.filter_sublist _))
          dsimp only
          by_cases hh : (room.hostId == pid) = true
          · rw [if_pos hh]
            apply registryWF_setRoom _ _ _ hrs
            exact ⟨by simp, hsub, by simp⟩
          · rw [if_neg hh]
            apply registryWF_setRoom _ _ _ hrs
            refine ⟨by simp, hsub, ?_⟩
            rcases List.mem_map.mp hhost with ⟨q, hq, hqid⟩
            have hhf : (room.hostId == pid) = false := by
              cases hcb : (room.hostId == pid) with
              | true => exact absurd hcb hh
              | false => rfl
            have hqpid : (q.id == pid) = false := by rw [hqid]; exact hhf
            have hqrem : q ∈ room.players.filter (fun q => !(q.id == pid)) :=
              List.mem_filter.mpr ⟨hq, by rw [hqpid]; rfl⟩
            rw [hrem] at hqrem
            exact List.mem_map.mpr ⟨q, hqrem, hqid⟩

/-- C3: every registry state reachable by any sequence of JOIN_ROOM and
disconnect events is well-formed: each room present is non-empty and its
hostId references exactly one member of that room. -/
theorem registry_invariant (es : List REvent) : registryWF (runEvents es) := by
  unfold runEvents
  have h : ∀ rs, registryWF rs → registryWF (es.foldl applyEvent rs) := by
    induction es with
    | nil => intro rs h; exact h
    | cons e es ih =>
        intro rs h
        apply ih
        cases e with
        | join rid p => exact registryWF_join rs rid p h
        | close rid pid => exact registryWF_close rs rid pid h
  apply h
  intro pr hpr
  cases hpr

/-- C3 witness: the registry after a concrete join-join-disconnect sequence
is well-formed. -/
theorem registry_invariant_witness :
    registryWF (runEvents [REvent.join "ABC" ⟨"p1", "Alice", true⟩,
      REvent.join "ABC" ⟨"p2", "Bob", true⟩, REvent.close "ABC" "p1"]) :=
  registry_invariant _

/-- find? on a key-updated association list returns the written entry when
the key was present. -/
theorem find?_map_update (rs : List (String × Room)) (rid : String) (r : Room)
    (hany : rs.any (fun pr => pr.1 == rid) = true) :
    List.find? (fun pr => pr.1 == rid)
      (rs.map (fun pr => if pr.1 == rid then (rid, r) else pr)) = some (rid, r) := by
  induction rs with
  | nil => simp at hany
  | cons q qs ih =>
      by_cases hq : (q.1 == rid) = true
      · rw [List.map_cons, if_pos hq]
        exact List.find?_cons_of_pos _ (beq_self_eq_true rid)
      · rw [List.map_cons, if_neg hq]
        rw [List.find?_cons_of_neg _ (by simpa using hq)]
        apply ih
        simpa [List.any_cons, hq] using hany

/-- find? after appending an entry for an absent key returns that entry. -/
theorem find?_append_absent (rs : List (String × Room)) (rid : String) (r : Room)
    (hany : rs.any (fun pr => pr.1 == rid) = false) :
    List.find? (fun pr => pr.1 == rid) (rs ++ [(rid, r)]) = some (rid, r) := by
  induction rs with
  | nil => exact List.find?_cons_of_pos _ (beq_self_eq_true rid)
  | cons q qs ih =>
      rw [List.any_cons] at hany
      rcases Bool.or_eq_false_iff.mp hany with ⟨h1, h2⟩
      rw [List.cons_append]
      rw [List.find?_cons_of_neg _ (by simp [h1])]
      exact ih h2

/-- Looking up the key just written by setRoom yields the written room. -/
theorem findRoom_setRoom (rs : Registry) (rid : String) (r : Room) :
    findRoom (setRoom rs rid r) rid = some r := by
  unfold findRoom setRoom
  by_cases hany : rs.any (fun pr => pr.1 == rid) = true
  · rw [if_pos hany, find?_map_update rs rid r hany]
    rfl
  · have hf : rs.any (fun pr => pr.1 == rid) = false := by
      cases hcb : rs.any (fun pr => pr.1 == rid) with
      | true => exact absurd hcb hany
      | false => rfl
    rw [if_neg hany, find?_append_absent rs rid r hf]
    rfl

/-- C4 counterexample: when the departing host leaves behind a member whose
connection is not open, the registry still promotes that member (hostId is
updated) but sends no BECAME_HOST message to anyone, contradicting the claim
that the promoted member is always sent one. -/
theorem became_host_not_sent :
    findRoom (closeConn regClosed "ABC" "p1").1 "ABC" =
      some ⟨[⟨"p2", "Bob", false⟩], "p2"⟩ ∧
    (closeConn regClosed "ABC" "p1").2.filter OutMsg.isBecameHost = [] := by
  decide

/-- C4 (amended): when the disconnecting player was the host and at least one
member remains, the registry promotes the first remaining member in insertion
order, updates hostId to that member's id, and sends BECAME_HOST to that
member — and to no other member — exactly when that member's connection is
open; a promoted member with a closed connection is skipped. -/
theorem host_migration (rs : Registry) (rid pid : String) (room : Room)
    (newHost : SPlayer) (rest : List SPlayer)
    (hfind : findRoom rs rid = some room) (hhost : room.hostId = pid)
    (hrem : room.players.filter (fun q => !(q.id == pid)) = newHost :: rest) :
    findRoom (closeConn rs rid pid).1 rid = some ⟨newHost :: rest, newHost.id⟩ ∧
    (closeConn rs rid pid).2.filter OutMsg.isBecameHost =
      (if newHost.connOpen then [OutMsg.BECAME_HOST newHost.id] else []) := by
  have hbeq : (room.hostId == pid) = true := by
    rw [hhost]; exact beq_self_eq_true pid
  unfold closeConn
  rw [hfind]
  dsimp only
  rw [hrem]
  dsimp only
  rw [if_pos hbeq]
  constructor
  · exact findRoom_setRoom rs rid _
  · rw [List.filter_append]
    have h1 : (((newHost :: rest).filter (fun q => q.connOpen)).map
        (fun q => OutMsg.PLAYER_LEFT q.id pid)).filter OutMsg.isBecameHost = [] := by
      apply List.filter_eq_nil_iff.mpr
      intro m hm
      rcases List.mem_map.mp hm with ⟨q, _, hq⟩
      rw [← hq]
      simp [OutMsg.isBecameHost]
    rw [h1]
    cases hc : newHost.connOpen <;> simp [OutMsg.isBecameHost]

/-- C4 witness: with an open-connection remaining member, the promotion
happens and exactly one BECAME_HOST (to the promoted member) is sent. -/
theorem host_migration_witness :
    findRoom (closeConn regOpen "XYZ" "p1").1 "XYZ" =
      some ⟨[⟨"p2", "Bob", true⟩], "p2"⟩ ∧
    (closeConn regOpen "XYZ" "p1").2.filter OutMsg.isBecameHost =
      [OutMsg.BECAME_HOST "p2"] :=
  host_migration regOpen "XYZ" "p1"
    ⟨[⟨"p1", "Alice", true⟩, ⟨"p2", "Bob", true⟩], "p1"⟩
    ⟨"p2", "Bob", true⟩ [] rfl rfl rfl
